import Mathlib

/-!
# logging_lib: sinks, producer/consumer queue and statistics collector

A shallow embedding of

* `include/logging/logger.hpp` (LogLevel, Status, FileInit, UdpInit),
* `src/sinks.hpp` (level_to_cstr, FileLogger, UdpLogger),
* `apps/logger_demo.cpp` (Item, TSQueue),
* `apps/stats_collector.cpp` (Stats, level_index_from_message, the body of the
  receive loop),

followed by theorems about them.

Conventions.
* A `std::string` is a `List Char`; one list element stands for one `char` of
  the C++ string, so `size()` is `List.length`.
* Mutable objects are explicit states; a member function returns the new state
  together with its result and the list of effects (stream insertions, system
  calls) it performed, in program order.
* Whatever the operating system or the clock decides (does an insertion leave
  the stream good, what does `sendto` return, what time is it) is an argument.
* Mutexes, atomics and condition variables are not modelled: every operation
  is one sequential step.
-/

namespace LoggingLib

/-- A `std::string`, one list element per `char`. -/
abbrev Str := List Char

/-! ## include/logging/logger.hpp -/

/-- The enumeration `enum class LogLevel : int`. -/
inductive LogLevel where
  | Debug
  | Info
  | Warn
  | Error
  deriving DecidableEq

/-- The underlying `int` of an enumerator: Debug 0, Info 1, Warn 2, Error 3. -/
def LogLevel.toInt : LogLevel → Int
  | .Debug => 0
  | .Info => 1
  | .Warn => 2
  | .Error => 3

/-- The comparison `a < b` of two enumerators, which compares their underlying integers. -/
def LogLevel.lt (a b : LogLevel) : Bool := decide (a.toInt < b.toInt)

/-- The record `struct Status` with fields ok, code, message. -/
structure Status where
  ok : Bool
  code : Int
  message : Str
  deriving DecidableEq

/-- The success value `Status::Ok()`, the default-initialised Status (true, 0, empty message). -/
def Status.Ok : Status := { ok := true, code := 0, message := [] }

/-- The failure value `Status::Err(c, msg)`. -/
def Status.Err (c : Int) (msg : Str) : Status := { ok := false, code := c, message := msg }

/-- The record `struct FileInit`. -/
structure FileInit where
  file_path : Str
  default_level : LogLevel
  deriving DecidableEq

/-- The record `struct UdpInit`; `port` is a `uint16_t`. -/
structure UdpInit where
  host : Str
  port : Nat
  default_level : LogLevel
  deriving DecidableEq

/-! ## src/sinks.hpp -/

/-- The function `level_to_cstr`. The trailing `return "UNKNOWN"` of the source is reached by none
of the four enumerators. -/
def level_to_cstr : LogLevel → Str
  | .Debug => ['D', 'E', 'B', 'U', 'G']
  | .Info => ['I', 'N', 'F', 'O']
  | .Warn => ['W', 'A', 'R', 'N']
  | .Error => ['E', 'R', 'R', 'O', 'R']

/-- What a sink operation does to the outside world. -/
inductive Effect where
  /-- The call `ofs_.open(path, out | app)`. -/
  | streamOpen (path : Str)
  /-- One `ofs_ << chunk` that reached the stream buffer. -/
  | streamWrite (chunk : Str)
  /-- The call `ofs_.flush()` reaching the stream buffer. -/
  | streamFlush
  /-- The call `ofs_.close()`: the file handle is released. -/
  | streamClose
  /-- The call `::socket(AF_INET, SOCK_DGRAM, 0)`. -/
  | socketCall
  /-- The call `::sendto(fd, payload, ...)`. -/
  | sendto (fd : Int) (payload : Str)
  /-- The call `::close(fd)`: the descriptor is released. -/
  | fdClose (fd : Int)
  deriving DecidableEq

/-- The part of a `std::ofstream` the sink looks at: `is_open()` and `good()`. -/
structure OFStream where
  is_open : Bool
  good : Bool
  deriving DecidableEq

/-- One formatted insertion `ofs << chunk`. On a stream that is not good the sentry fails and
nothing is written; otherwise the chunk goes to the buffer and `ok` says whether the stream is
still good afterwards. -/
def OFStream.insert (o : OFStream) (chunk : Str) (ok : Bool) : OFStream × List Effect :=
  if o.good then ({ o with good := ok }, [Effect.streamWrite chunk]) else (o, [])

/-- A chain `ofs << c0 << c1 << ...`; `oks i` is the outcome of the i-th insertion, counted from
`i0`. -/
def OFStream.insertAll (o : OFStream) (oks : Nat → Bool) : Nat → List Str → OFStream × List Effect
  | _, [] => (o, [])
  | i0, c :: cs =>
    let r := o.insert c (oks i0)
    let r2 := OFStream.insertAll r.1 oks (i0 + 1) cs
    (r2.1, r.2 ++ r2.2)

/-- The call `ofs.flush()`: an unformatted output function, so nothing happens on a stream that
is not good; `ok` says whether the synchronisation succeeded. -/
def OFStream.flush (o : OFStream) (ok : Bool) : OFStream × List Effect :=
  if o.good then ({ o with good := ok }, [Effect.streamFlush]) else (o, [])

/-- The call `ofs.close()`: the file is closed; a failure (`ok = false`) sets failbit. -/
def OFStream.close (o : OFStream) (ok : Bool) : OFStream × List Effect :=
  ({ is_open := false, good := o.good && ok }, [Effect.streamClose])

/-- The members of `class FileLogger` (the mutex apart). -/
structure FileLogger where
  init_ : FileInit
  ofs_ : OFStream
  level_ : LogLevel
  opened_ : Bool
  deriving DecidableEq

/-- The constructor `FileLogger(FileInit init)`. -/
def FileLogger.new (init : FileInit) : FileLogger :=
  { init_ := init, ofs_ := { is_open := false, good := true }, level_ := init.default_level,
    opened_ := false }

/-- The method `FileLogger::open`. `ok` is whether the operating system opens the file. Opening a
stream that is already open fails (failbit) and leaves it open. -/
def FileLogger.open (s : FileLogger) (ok : Bool) : Status × FileLogger × List Effect :=
  let ofs1 : OFStream :=
    if s.ofs_.is_open then { s.ofs_ with good := false }
    else if ok then { is_open := true, good := true }
    else { s.ofs_ with good := false }
  if !ofs1.is_open then
    (Status.Err 1 ("failed to open log file: ".toList ++ s.init_.file_path),
      { s with ofs_ := ofs1 }, [Effect.streamOpen s.init_.file_path])
  else
    (Status.Ok, { s with ofs_ := ofs1, opened_ := true }, [Effect.streamOpen s.init_.file_path])

/-- The chunks inserted by `FileLogger::log`, in order; `ts` is what `now_iso8601_local()`
returned. -/
def FileLogger.chunks (lv : LogLevel) (msg ts : Str) : List Str :=
  [['['], ts, [']'], ['['], level_to_cstr lv, [']', ' '], msg, ['\n']]

/-- The method `FileLogger::log`. `ts` is the timestamp string, `oks i` the outcome of the i-th
insertion. -/
def FileLogger.log (s : FileLogger) (lv : LogLevel) (msg : Str) (ts : Str) (oks : Nat → Bool) :
    Status × FileLogger × List Effect :=
  if lv.lt s.level_ then (Status.Ok, s, [])
  else if !s.opened_ then (Status.Err 2 "logger not opened".toList, s, [])
  else if !s.ofs_.good then (Status.Err 3 "stream is not good".toList, s, [])
  else
    let r := s.ofs_.insertAll oks 0 (FileLogger.chunks lv msg ts)
    (Status.Ok, { s with ofs_ := r.1 }, r.2)

/-- The method `FileLogger::set_level`. -/
def FileLogger.set_level (s : FileLogger) (lv : LogLevel) : FileLogger := { s with level_ := lv }

/-- The method `FileLogger::level`. -/
def FileLogger.level (s : FileLogger) : LogLevel := s.level_

/-- The method `FileLogger::flush`. -/
def FileLogger.flush (s : FileLogger) (ok : Bool) : FileLogger × List Effect :=
  if s.opened_ then
    let r := s.ofs_.flush ok
    ({ s with ofs_ := r.1 }, r.2)
  else (s, [])

/-- The method `FileLogger::close`; `fok` and `cok` are the outcomes of the flush and of the
close of the stream. -/
def FileLogger.close (s : FileLogger) (fok cok : Bool) : FileLogger × List Effect :=
  if s.opened_ then
    let r1 := s.ofs_.flush fok
    let r2 := r1.1.close cok
    ({ s with ofs_ := r2.1, opened_ := false }, r1.2 ++ r2.2)
  else (s, [])

/-- The structure `sockaddr_in` as far as the sink fills it in. -/
structure SockAddr where
  sin_family : Nat
  sin_port : Nat
  sin_addr : Nat
  deriving DecidableEq

/-- The constant `AF_INET`. -/
def AF_INET : Nat := 2

/-- The members of `class UdpLogger` (the mutex apart). -/
structure UdpLogger where
  init_ : UdpInit
  fd_ : Int
  addr_ : SockAddr
  level_ : LogLevel
  opened_ : Bool
  deriving DecidableEq

/-- The constructor `UdpLogger(UdpInit init)`. -/
def UdpLogger.new (init : UdpInit) : UdpLogger :=
  { init_ := init, fd_ := -1, addr_ := { sin_family := 0, sin_port := 0, sin_addr := 0 },
    level_ := init.default_level, opened_ := false }

/-- The method `UdpLogger::open`. `sock` is what `::socket` returns, `aton` what `inet_aton`
makes of the host (`none` when it rejects it), `port_n` is `htons(port)`. -/
def UdpLogger.open (s : UdpLogger) (sock : Int) (aton : Option Nat) (port_n : Nat) :
    Status × UdpLogger × List Effect :=
  let s1 := { s with fd_ := sock }
  if sock < 0 then (Status.Err 10 "socket() failed".toList, s1, [Effect.socketCall])
  else
    match aton with
    | none =>
      (Status.Err 11 "invalid host".toList,
        { s1 with addr_ := { sin_family := AF_INET, sin_port := port_n, sin_addr := 0 },
                  fd_ := -1 },
        [Effect.socketCall, Effect.fdClose sock])
    | some a =>
      (Status.Ok,
        { s1 with addr_ := { sin_family := AF_INET, sin_port := port_n, sin_addr := a },
                  opened_ := true },
        [Effect.socketCall])

/-- The datagram built by `UdpLogger::log`. -/
def UdpLogger.payload (lv : LogLevel) (msg ts : Str) : Str :=
  ['['] ++ ts ++ [']'] ++ ['['] ++ level_to_cstr lv ++ [']', ' '] ++ msg

/-- The method `UdpLogger::log`. `ts` is the timestamp string, `n` what `::sendto` returns. -/
def UdpLogger.log (s : UdpLogger) (lv : LogLevel) (msg : Str) (ts : Str) (n : Int) :
    Status × UdpLogger × List Effect :=
  if lv.lt s.level_ then (Status.Ok, s, [])
  else if !s.opened_ then (Status.Err 12 "logger not opened".toList, s, [])
  else
    let p := UdpLogger.payload lv msg ts
    if n < 0 ∨ n ≠ (p.length : Int) then
      (Status.Err 13 "sendto() failed".toList, s, [Effect.sendto s.fd_ p])
    else (Status.Ok, s, [Effect.sendto s.fd_ p])

/-- The method `UdpLogger::set_level`. -/
def UdpLogger.set_level (s : UdpLogger) (lv : LogLevel) : UdpLogger := { s with level_ := lv }

/-- The method `UdpLogger::level`. -/
def UdpLogger.level (s : UdpLogger) : LogLevel := s.level_

/-- The method `UdpLogger::flush`, whose body is empty. -/
def UdpLogger.flush (s : UdpLogger) : UdpLogger × List Effect := (s, [])

/-- The method `UdpLogger::close`. -/
def UdpLogger.close (s : UdpLogger) : UdpLogger × List Effect :=
  if s.opened_ then ({ s with fd_ := -1, opened_ := false }, [Effect.fdClose s.fd_])
  else (s, [])

/-! ## apps/logger_demo.cpp -/

/-- The record `struct Item`. -/
structure Item where
  level : LogLevel
  text : Str
  deriving DecidableEq

/-- The members of `class TSQueue` seen by one thread at a time: the `std::queue` (front of the
queue = head of the list) and the stop flag. -/
structure TSQueue where
  q_ : List Item
  stop_ : Bool
  deriving DecidableEq

/-- A freshly constructed queue: empty, `stop_ = false`. -/
def TSQueue.new : TSQueue := { q_ := [], stop_ := false }

/-- The method `TSQueue::push`: append at the back. -/
def TSQueue.push (q : TSQueue) (it : Item) : TSQueue := { q with q_ := q.q_ ++ [it] }

/-- The method `TSQueue::pop(Item& out)`. The result is `none` when the wait predicate
`!q_.empty() || stop_` is false, in which case a sequential caller waits for ever; otherwise it
is the returned flag, the value of `out` after the call and the queue after the call. -/
def TSQueue.pop (q : TSQueue) (out : Item) : Option (Bool × Item × TSQueue) :=
  if !q.q_.isEmpty || q.stop_ then
    match q.q_ with
    | [] => some (false, out, q)
    | x :: rest => some (true, x, { q with q_ := rest })
  else none

/-- The method `TSQueue::stop`. -/
def TSQueue.stop (q : TSQueue) : TSQueue := { q with stop_ := true }

/-- A run of pushes, in order. -/
def TSQueue.pushAll (q : TSQueue) (items : List Item) : TSQueue := items.foldl TSQueue.push q

/-- The consumer calling `pop` n times in a row on the same variable `out`: the list of
(returned flag, value of `out`) per call, the final value of `out` and the final queue; `none`
as soon as one call waits for ever. -/
def TSQueue.popN : Nat → TSQueue → Item → Option (List (Bool × Item) × Item × TSQueue)
  | 0, q, out => some ([], out, q)
  | n + 1, q, out =>
    match q.pop out with
    | none => none
    | some (b, out1, q1) =>
      match TSQueue.popN n q1 out1 with
      | none => none
      | some (rs, out2, q2) => some ((b, out1) :: rs, out2, q2)

/-! ## apps/stats_collector.cpp -/

/-- The constant `SIZE_MAX` of a 64-bit target. -/
def SIZE_MAX : Nat := 2 ^ 64 - 1

/-- The record `struct Stats`; `per_level` is the array of four counters. -/
structure Stats where
  total : Nat
  per_level : Fin 4 → Nat
  last_hour : Nat
  min_len : Nat
  max_len : Nat
  sum_len : Nat

/-- A value-initialised `Stats` with its default member initialisers. -/
def Stats.init : Stats :=
  { total := 0, per_level := fun _ => 0, last_hour := 0, min_len := SIZE_MAX, max_len := 0,
    sum_len := 0 }

/-- The object representation of a `Stats`: nine 64-bit words in declaration order (the record
has no padding). -/
def Stats.words (s : Stats) : List Nat :=
  [s.total, s.per_level 0, s.per_level 1, s.per_level 2, s.per_level 3, s.last_hour, s.min_len,
    s.max_len, s.sum_len]

/-- The operator `Stats::operator!=`: `memcmp` over the two object representations is not 0. -/
def Stats.ne (a b : Stats) : Bool := a.words != b.words

/-- The scan behind `std::string::find(c, pos)`: the first index, counted from `i`, at which `c`
stands. -/
def findAux (c : Char) : List Char → Nat → Option Nat
  | [], _ => none
  | x :: xs, i => if x = c then some i else findAux c xs (i + 1)

/-- The call `s.find(c, pos)`; `none` stands for `std::string::npos`, which is no index of any
string. -/
def find (s : Str) (c : Char) (pos : Nat) : Option Nat := findAux c (s.drop pos) pos

/-- The call `s.substr(pos, n)` for `pos <= s.size()`. -/
def substr (s : Str) (pos n : Nat) : Str := (s.drop pos).take n

/-- The function `level_index_from_message`. -/
def level_index_from_message (s : Str) : Int :=
  let l := find s '[' 0
  let m := find s ']' (match l with | none => 0 | some l => l + 1)
  match m with
  | none => 1
  | some m =>
    let l2 := find s '[' (m + 1)
    let m2 := find s ']' (match l2 with | none => 0 | some l2 => l2 + 1)
    match l2, m2 with
    | some l2, some m2 =>
      let level := substr s (l2 + 1) (m2 - (l2 + 1))
      if level = ['D', 'E', 'B', 'U', 'G'] then 0
      else if level = ['I', 'N', 'F', 'O'] then 1
      else if level = ['W', 'A', 'R', 'N'] then 2
      else if level = ['E', 'R', 'R', 'O', 'R'] then 3
      else 1
    | _, _ => 1

/-- The string `std::string msg(buf)` built from a received datagram: at most 2047 bytes are
received and the string ends at the first NUL. -/
def msg_of_datagram (dgram : List Char) : Str :=
  (dgram.take 2047).takeWhile (fun c => c ≠ Char.ofNat 0)

/-- The statistics update of the receive loop (the lines from `st.total++` to
`st.per_level[idx]++`); the counters are 64-bit and wrap. -/
def update_stats (st : Stats) (msg : Str) : Stats :=
  let st1 : Stats := { st with total := (st.total + 1) % 2 ^ 64 }
  let len := msg.length
  let st2 : Stats := { st1 with sum_len := (st1.sum_len + len) % 2 ^ 64 }
  let st3 : Stats := if len < st2.min_len then { st2 with min_len := len } else st2
  let st4 : Stats := if len > st3.max_len then { st3 with max_len := len } else st3
  let idx := level_index_from_message msg
  if h : 0 ≤ idx ∧ idx < 4 then
    let i : Fin 4 := ⟨idx.toNat, by omega⟩
    { st4 with per_level := Function.update st4.per_level i ((st4.per_level i + 1) % 2 ^ 64) }
  else st4

/-- One hour, `hours(1)`, in the nanosecond ticks of `steady_clock`. -/
def HOUR : Int := 3600 * 10 ^ 9

/-- The eviction loop `while (!w.empty() && w.front() < cutoff) w.pop_front();`. -/
def evict (cutoff : Int) : List Int → List Int
  | [] => []
  | t :: ts => if t < cutoff then evict cutoff ts else t :: ts

/-- The conversion `(long long)T` of a `uint64_t`. -/
def toInt64 (x : Nat) : Int :=
  if x % 2 ^ 64 < 2 ^ 63 then ((x % 2 ^ 64 : Nat) : Int) else ((x % 2 ^ 64 : Nat) : Int) - 2 ^ 64

/-- Which of the two `print_stats` calls of the loop produced a report. -/
inductive Trigger where
  | count
  | time
  deriving DecidableEq

/-- One call of `print_stats(st)`: the trigger and the snapshot printed (the text layout of the
dump is not modelled). -/
structure Report where
  trigger : Trigger
  snapshot : Stats

/-- The variables of `main` that live across iterations of the receive loop; time points are
nanosecond ticks of `steady_clock`, the front of the deque is the head of the list. -/
structure Collector where
  st : Stats
  last_printed : Stats
  last_hour_times : List Int
  last_print_tp : Int

/-- The state before the first iteration; `start` is the clock value read into
`last_print_tp`. -/
def Collector.init (start : Int) : Collector :=
  { st := Stats.init, last_printed := Stats.init, last_hour_times := [], last_print_tp := start }

/-- One iteration of the receive loop for a received string `msg`, from the statistics update to
the end of the body; `now` is the clock value read in the iteration, `N` and `T` are the two
thresholds. The result is the new state and the reports printed, in order; the echo of the
message itself on standard output is left out. -/
def step (N T : Nat) (c : Collector) (msg : Str) (now : Int) : Collector × List Report :=
  let st1 := update_stats c.st msg
  let w1 := c.last_hour_times ++ [now]
  let cutoff := now - HOUR
  let w2 := evict cutoff w1
  let st2 : Stats := { st1 with last_hour := w2.length }
  let c1 : Collector := { c with st := st2, last_hour_times := w2 }
  let r1 : Collector × Bool × List Report :=
    if N > 0 ∧ st2.total % N = 0 then
      ({ c1 with last_printed := st2, last_print_tp := now }, true,
        [{ trigger := Trigger.count, snapshot := st2 }])
    else (c1, false, [])
  let c2 := r1.1
  let printed := r1.2.1
  let since : Int := Int.tdiv (now - c2.last_print_tp) (10 ^ 9)
  if !printed ∧ since ≥ toInt64 T ∧ c2.st.ne c2.last_printed = true then
    ({ c2 with last_printed := c2.st, last_print_tp := now },
      r1.2.2 ++ [{ trigger := Trigger.time, snapshot := c2.st }])
  else (c2, r1.2.2)

/-- The receive loop over a stream of (received string, clock value) pairs: the final state and,
per message, the reports printed on it. -/
def run (N T : Nat) : Collector → List (Str × Int) → Collector × List (List Report)
  | c, [] => (c, [])
  | c, (msg, now) :: rest =>
    let r := step N T c msg now
    let rr := run N T r.1 rest
    (rr.1, r.2 :: rr.2)

/-! ## The line pattern of the specification -/

/-- The line contains two bracketed segments, the second one after the first: somewhere a
'[' ... ']' and, further right, a second '[' ... ']'. -/
def TwoSegments (s : Str) : Prop :=
  ∃ pre a mid b rest : Str, s = pre ++ '[' :: (a ++ ']' :: (mid ++ '[' :: (b ++ ']' :: rest)))

/-- The text `b` is the second bracketed segment of the line `s`, segments being read from the
left: the first segment opens at the first '[' and closes at the next ']', the second opens at
the next '[' after that and closes at the next ']'. -/
def SecondSegment (s b : Str) : Prop :=
  ∃ pre a mid rest : Str, s = pre ++ '[' :: (a ++ ']' :: (mid ++ '[' :: (b ++ ']' :: rest))) ∧
    '[' ∉ pre ∧ ']' ∉ a ∧ '[' ∉ mid ∧ ']' ∉ b

/-! ## Interface calls and sample sinks -/

/-- A call through the `ILogger` interface together with what the environment answers to it:
the timestamp and insertion outcomes (file) or `sendto` result (UDP) of a `log`, the outcome of a
flush, the outcomes of the flush and the close inside `close`. -/
inductive Call where
  | log (lv : LogLevel) (msg ts : Str) (oks : Nat → Bool) (n : Int)
  | set_level (lv : LogLevel)
  | level
  | flush (ok : Bool)
  | close (fok cok : Bool)

/-- One interface call on a file sink: the new state and the effects. -/
def FileLogger.call (s : FileLogger) : Call → FileLogger × List Effect
  | .log lv msg ts oks _ => (s.log lv msg ts oks).2
  | .set_level lv => (s.set_level lv, [])
  | .level => (s, [])
  | .flush ok => s.flush ok
  | .close fok cok => s.close fok cok

/-- A sequence of interface calls on a file sink: the final state and all effects in order. -/
def FileLogger.calls (s : FileLogger) : List Call → FileLogger × List Effect
  | [] => (s, [])
  | c :: cs =>
    let r := s.call c
    let rr := FileLogger.calls r.1 cs
    (rr.1, r.2 ++ rr.2)

/-- One interface call on a UDP sink: the new state and the effects. -/
def UdpLogger.call (s : UdpLogger) : Call → UdpLogger × List Effect
  | .log lv msg ts _ n => (s.log lv msg ts n).2
  | .set_level lv => (s.set_level lv, [])
  | .level => (s, [])
  | .flush _ => s.flush
  | .close _ _ => s.close

/-- A sequence of interface calls on a UDP sink: the final state and all effects in order. -/
def UdpLogger.calls (s : UdpLogger) : List Call → UdpLogger × List Effect
  | [] => (s, [])
  | c :: cs =>
    let r := s.call c
    let rr := UdpLogger.calls r.1 cs
    (rr.1, r.2 ++ rr.2)

/-- A file sink created with default level Info and opened successfully. -/
def demoFileLogger : FileLogger :=
  (FileLogger.open (FileLogger.new { file_path := "app.log".toList, default_level := .Info })
    true).2.1

/-- The sink `demoFileLogger` after one `log(Error, "boom")` whose first insertion failed: still
open, its stream no longer good. -/
def failedFileLogger : FileLogger :=
  (demoFileLogger.log .Error "boom".toList "2024-01-01 00:00:00.000".toList (fun _ => false)).2.1

/-- A UDP sink created with default level Info and opened successfully on descriptor 3. -/
def demoUdpLogger : UdpLogger :=
  (UdpLogger.open
    (UdpLogger.new { host := "127.0.0.1".toList, port := 9999, default_level := .Info })
    3 (some 2130706433) 3879).2.1

/-! # Theorems -/

/-! ## The parser of the collector -/

theorem findAux_append (c : Char) (pre post : List Char) (i : Nat) (h : c ∉ pre) :
    findAux c (pre ++ c :: post) i = some (i + pre.length) := by
  induction pre generalizing i with
  | nil => simp [findAux]
  | cons x xs ih =>
    have hx : x ≠ c := fun e => h (by simp [e])
    have hxs : c ∉ xs := fun e => h (by simp [e])
    simp [findAux, hx, ih (i + 1) hxs]
    omega

theorem findAux_none (c : Char) (t : List Char) (i : Nat) (h : c ∉ t) : findAux c t i = none := by
  induction t generalizing i with
  | nil => simp [findAux]
  | cons x xs ih =>
    have hx : x ≠ c := fun e => h (by simp [e])
    have hxs : c ∉ xs := fun e => h (by simp [e])
    simp [findAux, hx, ih (i + 1) hxs]

theorem findAux_some (c : Char) (t : List Char) (i k : Nat) (h : findAux c t i = some k) :
    ∃ pre post, t = pre ++ c :: post ∧ c ∉ pre ∧ k = i + pre.length := by
  induction t generalizing i with
  | nil => simp [findAux] at h
  | cons x xs ih =>
    by_cases hx : x = c
    · refine ⟨[], xs, by simp [hx], by simp, ?_⟩
      simp [findAux, hx] at h
      simp [h]
    · simp [findAux, hx] at h
      obtain ⟨pre, post, h1, h2, h3⟩ := ih (i + 1) h
      refine ⟨x :: pre, post, by simp [h1], ?_, ?_⟩
      · simp [h2]
        exact fun e => hx e.symm
      · simp [h3]; omega

theorem drop_past (s pre post : List Char) (c : Char) (pos : Nat)
    (h : s.drop pos = pre ++ c :: post) : s.drop (pos + pre.length + 1) = post := by
  have : s.drop (pos + pre.length + 1) = (s.drop pos).drop (pre.length + 1) := by
    rw [List.drop_drop, Nat.add_assoc]
  rw [this, h]
  simp

theorem find_some (s : List Char) (c : Char) (pos k : Nat) (h : find s c pos = some k) :
    ∃ pre post, s.drop pos = pre ++ c :: post ∧ c ∉ pre ∧ k = pos + pre.length ∧
      s.drop (k + 1) = post := by
  obtain ⟨pre, post, h1, h2, h3⟩ := findAux_some c _ pos k h
  exact ⟨pre, post, h1, h2, h3, by rw [h3]; exact drop_past s pre post c pos h1⟩

theorem find_of_drop (s pre post : List Char) (c : Char) (pos : Nat)
    (h : s.drop pos = pre ++ c :: post) (hc : c ∉ pre) : find s c pos = some (pos + pre.length) := by
  unfold find
  rw [h]
  exact findAux_append c pre post pos hc

theorem level_index_of_parse (pre a mid b rest : Str) (h1 : '[' ∉ pre) (h2 : ']' ∉ a)
    (h3 : '[' ∉ mid) (h4 : ']' ∉ b) :
    level_index_from_message (pre ++ '[' :: (a ++ ']' :: (mid ++ '[' :: (b ++ ']' :: rest)))) =
      if b = ['D', 'E', 'B', 'U', 'G'] then 0
      else if b = ['I', 'N', 'F', 'O'] then 1
      else if b = ['W', 'A', 'R', 'N'] then 2
      else if b = ['E', 'R', 'R', 'O', 'R'] then 3
      else 1 := by
  generalize hs : pre ++ '[' :: (a ++ ']' :: (mid ++ '[' :: (b ++ ']' :: rest))) = s
  have d0 : s.drop 0 = pre ++ '[' :: (a ++ ']' :: (mid ++ '[' :: (b ++ ']' :: rest))) := by
    simp [hs]
  have hl : find s '[' 0 = some (0 + pre.length) := find_of_drop s _ _ _ 0 d0 h1
  have d1 := drop_past s _ _ _ 0 d0
  have hm := find_of_drop s _ _ _ _ d1 h2
  have d2 := drop_past s _ _ _ _ d1
  have hl2 := find_of_drop s _ _ _ _ d2 h3
  have d3 := drop_past s _ _ _ _ d2
  have hm2 := find_of_drop s _ _ _ _ d3 h4
  have hsub : substr s (0 + pre.length + 1 + a.length + 1 + mid.length + 1)
      (0 + pre.length + 1 + a.length + 1 + mid.length + 1 + b.length -
        (0 + pre.length + 1 + a.length + 1 + mid.length + 1)) = b := by
    unfold substr
    rw [d3]
    simp
  simp only [level_index_from_message, hl, hm, hl2, hm2, hsub]

theorem findAux_eq_none (c : Char) (t : List Char) (i : Nat) (h : findAux c t i = none) :
    c ∉ t := by
  induction t generalizing i with
  | nil => simp
  | cons x xs ih =>
    by_cases hx : x = c
    · simp [findAux, hx] at h
    · simp [findAux, hx] at h
      have := ih (i + 1) h
      simp [this]
      exact fun e => hx e.symm

theorem find_none_of_not_mem (s : List Char) (c : Char) (pos : Nat) (h : c ∉ s) :
    find s c pos = none :=
  findAux_none c _ pos (fun hm => h (List.mem_of_mem_drop hm))

theorem level_index_cases (s : Str) :
    level_index_from_message s = 1 ∨ ∃ b, SecondSegment s b := by
  cases hl : find s '[' 0 with
  | none =>
    left
    have hnot : '[' ∉ s := by
      have := findAux_eq_none _ _ _ hl
      simpa using this
    cases hm : find s ']' 0 with
    | none => simp only [level_index_from_message, hl, hm]
    | some m =>
      simp only [level_index_from_message, hl, hm, find_none_of_not_mem s '[' (m + 1) hnot]
  | some l =>
    cases hm : find s ']' (l + 1) with
    | none => left; simp only [level_index_from_message, hl, hm]
    | some m =>
      cases hl2 : find s '[' (m + 1) with
      | none => left; simp only [level_index_from_message, hl, hm, hl2]
      | some l2 =>
        cases hm2 : find s ']' (l2 + 1) with
        | none => left; simp only [level_index_from_message, hl, hm, hl2, hm2]
        | some m2 =>
          right
          obtain ⟨pre, r1, e1, n1, _, d1⟩ := find_some s _ _ _ hl
          obtain ⟨a, r2, e2, n2, _, d2⟩ := find_some s _ _ _ hm
          obtain ⟨mid, r3, e3, n3, _, d3⟩ := find_some s _ _ _ hl2
          obtain ⟨b, rest, e4, n4, _, _⟩ := find_some s _ _ _ hm2
          refine ⟨b, pre, a, mid, rest, ?_, n1, n2, n3, n4⟩
          rw [List.drop_zero] at e1
          rw [d1] at e2
          rw [d2] at e3
          rw [d3] at e4
          rw [e1, e2, e3, e4]

theorem first_split (c : Char) (t : List Char) (h : c ∈ t) :
    ∃ p x, t = p ++ c :: x ∧ c ∉ p := by
  cases hf : findAux c t 0 with
  | none => exact absurd h (findAux_eq_none c t 0 hf)
  | some k =>
    obtain ⟨p, x, e, hp, _⟩ := findAux_some c t 0 k hf
    exact ⟨p, x, e, hp⟩

theorem first_split_suffix (c : Char) (p x q y : List Char) (hp : c ∉ p)
    (h : p ++ c :: x = q ++ c :: y) : ∃ z, x = z ++ y := by
  induction p generalizing q with
  | nil =>
    cases q with
    | nil => exact ⟨[], by simpa using h⟩
    | cons d q2 =>
      simp only [List.nil_append, List.cons_append, List.cons.injEq] at h
      exact ⟨q2 ++ [c], by simp [h.2]⟩
  | cons d p2 ih =>
    have hd : d ≠ c := fun e => hp (by simp [e])
    have hp2 : c ∉ p2 := fun e => hp (by simp [e])
    cases q with
    | nil =>
      simp only [List.nil_append, List.cons_append, List.cons.injEq] at h
      exact absurd h.1 hd
    | cons d2 q2 =>
      simp only [List.cons_append, List.cons.injEq] at h
      exact ih q2 hp2 h.2

/-- A line contains two bracketed segments one after the other exactly when it has a second
bracketed segment in the leftmost reading. -/
theorem twoSegments_iff (s : Str) : TwoSegments s ↔ ∃ b, SecondSegment s b := by
  constructor
  · rintro ⟨pre, a, mid, b, rest, e⟩
    obtain ⟨p1, x1, e1, n1⟩ := first_split '[' s (by rw [e]; simp)
    obtain ⟨z1, k1⟩ := first_split_suffix '[' p1 x1 pre
      (a ++ ']' :: (mid ++ '[' :: (b ++ ']' :: rest))) n1 (by rw [← e1, e])
    obtain ⟨p2, x2, e2, n2⟩ := first_split ']' x1 (by rw [k1]; simp)
    obtain ⟨z2, k2⟩ := first_split_suffix ']' p2 x2 (z1 ++ a)
      (mid ++ '[' :: (b ++ ']' :: rest)) n2 (by rw [← e2, k1]; simp)
    obtain ⟨p3, x3, e3, n3⟩ := first_split '[' x2 (by rw [k2]; simp)
    obtain ⟨z3, k3⟩ := first_split_suffix '[' p3 x3 (z2 ++ mid) (b ++ ']' :: rest) n3
      (by rw [← e3, k2]; simp)
    obtain ⟨p4, x4, e4, n4⟩ := first_split ']' x3 (by rw [k3]; simp)
    exact ⟨p4, p1, p2, p3, x4, by rw [e1, e2, e3, e4], n1, n2, n3, n4⟩
  · rintro ⟨b, pre, a, mid, rest, e, _⟩
    exact ⟨pre, a, mid, b, rest, e⟩

theorem split_unique (c : Char) (p q x y : List Char) (hp : c ∉ p) (hq : c ∉ q)
    (h : p ++ c :: x = q ++ c :: y) : p = q ∧ x = y := by
  have e1 := findAux_append c p x 0 hp
  have e2 := findAux_append c q y 0 hq
  rw [h, e2] at e1
  have hlen : p.length = q.length := by
    have := Option.some.inj e1
    omega
  have := List.append_inj h hlen
  exact ⟨this.1, by simpa using this.2⟩

theorem SecondSegment_unique (s b c : Str) (hb : SecondSegment s b) (hc : SecondSegment s c) :
    b = c := by
  obtain ⟨p1, a1, m1, r1, e1, x1, x2, x3, x4⟩ := hb
  obtain ⟨p2, a2, m2, r2, e2, y1, y2, y3, y4⟩ := hc
  rw [e1] at e2
  obtain ⟨_, k1⟩ := split_unique _ _ _ _ _ x1 y1 e2
  obtain ⟨_, k2⟩ := split_unique _ _ _ _ _ x2 y2 k1
  obtain ⟨_, k3⟩ := split_unique _ _ _ _ _ x3 y3 k2
  exact (split_unique _ _ _ _ _ x4 y4 k3).1

/-- C9: the collector's parser inverts the sinks' line format. For every level lv, every timestamp
string ts containing neither bracket and every message text msg, level_index_from_message applied
to "[" + ts + "][" + level_to_cstr(lv) + "] " + msg is the integer value of lv; that string is the
datagram UdpLogger::log sends. -/
theorem level_index_inverts_format (lv : LogLevel) (ts msg : Str) (_h1 : '[' ∉ ts)
    (h2 : ']' ∉ ts) :
    level_index_from_message (['['] ++ ts ++ [']', '['] ++ level_to_cstr lv ++ [']', ' '] ++ msg)
      = lv.toInt ∧
    UdpLogger.payload lv msg ts
      = ['['] ++ ts ++ [']', '['] ++ level_to_cstr lv ++ [']', ' '] ++ msg := by
  refine ⟨?_, by simp [UdpLogger.payload]⟩
  have hb : ']' ∉ level_to_cstr lv := by cases lv <;> decide
  have key := level_index_of_parse [] ts [] (level_to_cstr lv) (' ' :: msg) (by simp) h2 (by simp) hb
  have es : ['['] ++ ts ++ [']', '['] ++ level_to_cstr lv ++ [']', ' '] ++ msg =
      [] ++ '[' :: (ts ++ ']' :: ([] ++ '[' :: (level_to_cstr lv ++ ']' :: (' ' :: msg)))) := by
    simp
  rw [es, key]
  cases lv <;> decide

/-- C9, witness: a Warn line whose message text contains brackets. -/
theorem level_index_inverts_format_witness :
    level_index_from_message
        (['['] ++ "2024-01-01 00:00:00.000".toList ++ [']', '['] ++ level_to_cstr LogLevel.Warn ++
          [']', ' '] ++ "disk [sda] full".toList) = LogLevel.Warn.toInt ∧
      UdpLogger.payload LogLevel.Warn "disk [sda] full".toList "2024-01-01 00:00:00.000".toList =
        ['['] ++ "2024-01-01 00:00:00.000".toList ++ [']', '['] ++ level_to_cstr LogLevel.Warn ++
          [']', ' '] ++ "disk [sda] full".toList :=
  level_index_inverts_format LogLevel.Warn "2024-01-01 00:00:00.000".toList
    "disk [sda] full".toList (by decide) (by decide)

/-- C10: level_index_from_message is a total function whose value is 0, 1, 2 or 3 on every string,
and it is 1 (Info) on every line that does not contain two bracketed segments one after the other
or whose second bracketed segment is none of DEBUG, INFO, WARN, ERROR. -/
theorem level_index_default (s : Str) :
    (level_index_from_message s = 0 ∨ level_index_from_message s = 1 ∨
      level_index_from_message s = 2 ∨ level_index_from_message s = 3) ∧
    ((¬ TwoSegments s ∨ ∀ b, SecondSegment s b → ∀ lv, b ≠ level_to_cstr lv) →
      level_index_from_message s = 1) := by
  rcases level_index_cases s with h | ⟨b, hb⟩
  · exact ⟨Or.inr (Or.inl h), fun _ => h⟩
  · have hb2 := hb
    obtain ⟨pre, a, mid, rest, e, n1, n2, n3, n4⟩ := hb2
    have key := level_index_of_parse pre a mid b rest n1 n2 n3 n4
    rw [← e] at key
    constructor
    · rw [key]
      split_ifs <;> simp
    · rintro (h | h)
      · exact absurd ⟨pre, a, mid, b, rest, e⟩ h
      · have hne := h b hb
        rw [key]
        have h0 := hne LogLevel.Debug
        have h2 := hne LogLevel.Warn
        have h3 := hne LogLevel.Error
        simp only [level_to_cstr] at h0 h2 h3
        simp [h0, h2, h3]

/-- C10, witness: a line without brackets, and a line whose second bracketed segment is TRACE. -/
theorem level_index_default_witness :
    level_index_from_message "no brackets here".toList = 1 ∧
      level_index_from_message "[12:00][TRACE] x".toList = 1 :=
  ⟨(level_index_default "no brackets here".toList).2
      (Or.inl (fun ⟨pre, a, mid, b, rest, e⟩ => by
        have hmem : '[' ∈ "no brackets here".toList := by rw [e]; simp
        revert hmem
        decide)),
    (level_index_default "[12:00][TRACE] x".toList).2
      (Or.inr (fun b hb lv => by
        have hs : SecondSegment "[12:00][TRACE] x".toList "TRACE".toList :=
          ⟨[], "12:00".toList, [], " x".toList, by decide, by decide, by decide, by decide,
            by decide⟩
        rw [SecondSegment_unique _ _ _ hb hs]
        cases lv <;> decide))⟩

/-! ## The sinks -/

theorem insertAll_good_ne_nil (o : OFStream) (oks : Nat → Bool) (i : Nat) (c : Str)
    (cs : List Str) (h : o.good = true) : (o.insertAll oks i (c :: cs)).2 ≠ [] := by
  simp [OFStream.insertAll, OFStream.insert, h]

theorem lt_eq_false_iff (a b : LogLevel) : a.lt b = false ↔ b.toInt ≤ a.toInt := by
  simp [LogLevel.lt]

theorem lt_eq_true_iff (a b : LogLevel) : a.lt b = true ↔ a.toInt < b.toInt := by
  simp [LogLevel.lt]

theorem file_log_spec (L : LogLevel) (msg ts : Str) (s : FileLogger) (oks : Nat → Bool)
    (hs : s.opened_ = true) :
    ((s.log L msg ts oks).2.2 ≠ [] ↔ (s.level_.toInt ≤ L.toInt ∧ s.ofs_.good = true)) ∧
      (s.level_.toInt ≤ L.toInt → s.ofs_.good = false →
        s.log L msg ts oks = (Status.Err 3 "stream is not good".toList, s, [])) ∧
      (L.toInt < s.level_.toInt → s.log L msg ts oks = (Status.Ok, s, [])) := by
  refine ⟨?_, ?_, ?_⟩
  · by_cases hlt : L.lt s.level_ = true
    · have : ¬ (s.level_.toInt ≤ L.toInt) := by
        have := (lt_eq_true_iff _ _).1 hlt
        omega
      simp [FileLogger.log, hlt, this]
    · have hlt2 : L.lt s.level_ = false := by simpa using hlt
      have hle := (lt_eq_false_iff _ _).1 hlt2
      by_cases hg : s.ofs_.good = true
      · have := insertAll_good_ne_nil s.ofs_ oks 0 ['[']
          [ts, [']'], ['['], level_to_cstr L, [']', ' '], msg, ['\n']] hg
        simp only [FileLogger.log, hlt2, hs, hg, FileLogger.chunks]
        simp [this, hle]
      · have hg2 : s.ofs_.good = false := by simpa using hg
        simp [FileLogger.log, hlt2, hs, hg2]
  · intro hle hg
    have hlt2 := (lt_eq_false_iff _ _).2 hle
    simp [FileLogger.log, hlt2, hs, hg]
  · intro hlt
    have hlt2 := (lt_eq_true_iff _ _).2 hlt
    simp [FileLogger.log, hlt2]

theorem udp_log_spec (L : LogLevel) (msg ts : Str) (u : UdpLogger) (n : Int)
    (hu : u.opened_ = true) :
    ((u.log L msg ts n).2.2 ≠ [] ↔ u.level_.toInt ≤ L.toInt) ∧
      (u.level_.toInt ≤ L.toInt →
        (u.log L msg ts n).2.2 = [Effect.sendto u.fd_ (UdpLogger.payload L msg ts)]) ∧
      (L.toInt < u.level_.toInt → u.log L msg ts n = (Status.Ok, u, [])) := by
  have hsend : u.level_.toInt ≤ L.toInt →
      (u.log L msg ts n).2.2 = [Effect.sendto u.fd_ (UdpLogger.payload L msg ts)] := by
    intro hle
    have hlt2 := (lt_eq_false_iff _ _).2 hle
    by_cases hn : n < 0 ∨ n ≠ ((UdpLogger.payload L msg ts).length : Int)
    · simp [UdpLogger.log, hlt2, hu, hn]
    · simp [UdpLogger.log, hlt2, hu, hn]
  have hdrop : L.toInt < u.level_.toInt → u.log L msg ts n = (Status.Ok, u, []) := by
    intro hlt
    have hlt2 := (lt_eq_true_iff _ _).2 hlt
    simp [UdpLogger.log, hlt2]
  refine ⟨?_, hsend, hdrop⟩
  by_cases hle : u.level_.toInt ≤ L.toInt
  · simp [hsend hle, hle]
  · have hlt : L.toInt < u.level_.toInt := by omega
    simp [hdrop hlt, hle]

/-- C1 (as amended): on an open sink whose filter level is TH, UdpLogger::log performs I/O, namely
exactly one sendto call, if and only if L >= TH; FileLogger::log writes to the file stream if and
only if L >= TH and the stream is good, and with L >= TH on a stream that is not good it returns
error 3, writes nothing and leaves the sink unchanged; when L < TH either sink returns Status Ok,
performs no I/O and is left unchanged. -/
theorem log_io_iff_level (L TH : LogLevel) (msg ts : Str) (s : FileLogger) (oks : Nat → Bool)
    (u : UdpLogger) (n : Int) (hs : s.opened_ = true) (hsl : s.level_ = TH)
    (hu : u.opened_ = true) (hul : u.level_ = TH) :
    (((s.log L msg ts oks).2.2 ≠ [] ↔ (TH.toInt ≤ L.toInt ∧ s.ofs_.good = true)) ∧
      (TH.toInt ≤ L.toInt → s.ofs_.good = false →
        s.log L msg ts oks = (Status.Err 3 "stream is not good".toList, s, [])) ∧
      (L.toInt < TH.toInt → s.log L msg ts oks = (Status.Ok, s, []))) ∧
    (((u.log L msg ts n).2.2 ≠ [] ↔ TH.toInt ≤ L.toInt) ∧
      (TH.toInt ≤ L.toInt →
        (u.log L msg ts n).2.2 = [Effect.sendto u.fd_ (UdpLogger.payload L msg ts)]) ∧
      (L.toInt < TH.toInt → u.log L msg ts n = (Status.Ok, u, []))) := by
  have h1 := file_log_spec L msg ts s oks hs
  have h2 := udp_log_spec L msg ts u n hu
  rw [hsl] at h1
  rw [hul] at h2
  exact ⟨h1, h2⟩

/-- C1, witness: log(Warn, "w") on the open sample sinks with filter level Info. -/
theorem log_io_iff_level_witness :
    (((demoFileLogger.log .Warn "w".toList "t".toList (fun _ => true)).2.2 ≠ [] ↔
        (LogLevel.Info.toInt ≤ LogLevel.Warn.toInt ∧ demoFileLogger.ofs_.good = true)) ∧
      (LogLevel.Info.toInt ≤ LogLevel.Warn.toInt → demoFileLogger.ofs_.good = false →
        demoFileLogger.log .Warn "w".toList "t".toList (fun _ => true) =
          (Status.Err 3 "stream is not good".toList, demoFileLogger, [])) ∧
      (LogLevel.Warn.toInt < LogLevel.Info.toInt →
        demoFileLogger.log .Warn "w".toList "t".toList (fun _ => true) =
          (Status.Ok, demoFileLogger, []))) ∧
    (((demoUdpLogger.log .Warn "w".toList "t".toList 12).2.2 ≠ [] ↔
        LogLevel.Info.toInt ≤ LogLevel.Warn.toInt) ∧
      (LogLevel.Info.toInt ≤ LogLevel.Warn.toInt →
        (demoUdpLogger.log .Warn "w".toList "t".toList 12).2.2 =
          [Effect.sendto demoUdpLogger.fd_ (UdpLogger.payload .Warn "w".toList "t".toList)]) ∧
      (LogLevel.Warn.toInt < LogLevel.Info.toInt →
        demoUdpLogger.log .Warn "w".toList "t".toList 12 = (Status.Ok, demoUdpLogger, []))) :=
  log_io_iff_level .Warn .Info "w".toList "t".toList demoFileLogger (fun _ => true)
    demoUdpLogger 12 (by decide) (by decide) (by decide) (by decide)

/-- C1, counterexample: the file sink `failedFileLogger` is open with filter level Info and
Error >= Info, yet log(Error, "x") performs no I/O: its stream is not good, the call returns
error 3. -/
theorem log_io_iff_level_counterexample :
    failedFileLogger.opened_ = true ∧ failedFileLogger.level_ = LogLevel.Info ∧
      (failedFileLogger.log .Error "x".toList "2024-01-01 00:00:01.000".toList
        (fun _ => true)).1.code = 3 ∧
      ¬ ((failedFileLogger.log .Error "x".toList "2024-01-01 00:00:01.000".toList
            (fun _ => true)).2.2 ≠ [] ↔ LogLevel.Info.toInt ≤ LogLevel.Error.toInt) := by
  decide

theorem file_call_closed (s : FileLogger) (c : Call) (h : s.opened_ = false) :
    (s.call c).1.opened_ = false ∧ (s.call c).2 = [] := by
  cases c with
  | log lv msg ts oks n =>
    by_cases hlt : lv.lt s.level_ = true
    · simp [FileLogger.call, FileLogger.log, hlt, h]
    · simp [FileLogger.call, FileLogger.log, hlt, h]
  | set_level lv => simp [FileLogger.call, FileLogger.set_level, h]
  | level => simp [FileLogger.call, h]
  | flush ok => simp [FileLogger.call, FileLogger.flush, h]
  | close fok cok => simp [FileLogger.call, FileLogger.close, h]

theorem file_calls_closed (s : FileLogger) (cs : List Call) (h : s.opened_ = false) :
    (s.calls cs).1.opened_ = false ∧ (s.calls cs).2 = [] := by
  induction cs generalizing s with
  | nil => simp [FileLogger.calls, h]
  | cons c cs ih =>
    have h1 := file_call_closed s c h
    have h2 := ih (s.call c).1 h1.1
    simp [FileLogger.calls, h1.2, h2.1, h2.2]

theorem udp_call_closed (s : UdpLogger) (c : Call) (h : s.opened_ = false) :
    (s.call c).1.opened_ = false ∧ (s.call c).2 = [] := by
  cases c with
  | log lv msg ts oks n =>
    by_cases hlt : lv.lt s.level_ = true
    · simp [UdpLogger.call, UdpLogger.log, hlt, h]
    · simp [UdpLogger.call, UdpLogger.log, hlt, h]
  | set_level lv => simp [UdpLogger.call, UdpLogger.set_level, h]
  | level => simp [UdpLogger.call, h]
  | flush ok => simp [UdpLogger.call, UdpLogger.flush, h]
  | close fok cok => simp [UdpLogger.call, UdpLogger.close, h]

theorem udp_calls_closed (s : UdpLogger) (cs : List Call) (h : s.opened_ = false) :
    (s.calls cs).1.opened_ = false ∧ (s.calls cs).2 = [] := by
  induction cs generalizing s with
  | nil => simp [UdpLogger.calls, h]
  | cons c cs ih =>
    have h1 := udp_call_closed s c h
    have h2 := ih (s.call c).1 h1.1
    simp [UdpLogger.calls, h1.2, h2.1, h2.2]

theorem file_close_closed (s : FileLogger) (fok cok : Bool) :
    (s.close fok cok).1.opened_ = false := by
  by_cases h : s.opened_ = true
  · simp [FileLogger.close, h]
  · simp [FileLogger.close, h]

theorem udp_close_closed (u : UdpLogger) : u.close.1.opened_ = false := by
  by_cases h : u.opened_ = true
  · simp [UdpLogger.close, h]
  · simp [UdpLogger.close, h]

theorem file_log_closed (s : FileLogger) (h : s.opened_ = false) (L : LogLevel) (msg ts : Str)
    (oks : Nat → Bool) :
    s.log L msg ts oks =
      (if L.lt s.level_ then Status.Ok else Status.Err 2 "logger not opened".toList, s, []) := by
  by_cases hlt : L.lt s.level_ = true
  · simp [FileLogger.log, hlt]
  · simp [FileLogger.log, hlt, h]

theorem udp_log_closed (u : UdpLogger) (h : u.opened_ = false) (L : LogLevel) (msg ts : Str)
    (n : Int) :
    u.log L msg ts n =
      (if L.lt u.level_ then Status.Ok else Status.Err 12 "logger not opened".toList, u, []) := by
  by_cases hlt : L.lt u.level_ = true
  · simp [UdpLogger.log, hlt]
  · simp [UdpLogger.log, hlt, h]

theorem file_close_of_closed (t : FileLogger) (h : t.opened_ = false) (a b : Bool) :
    t.close a b = (t, []) := by
  simp [FileLogger.close, h]

theorem udp_close_of_closed (t : UdpLogger) (h : t.opened_ = false) : t.close = (t, []) := by
  simp [UdpLogger.close, h]

/-- C7 (as amended): once close() has been called on a sink, whatever interface calls (log,
set_level, level, flush, close) follow, they perform no I/O, and every subsequent log(L, msg)
performs no I/O and leaves the sink unchanged; it fails with the "not opened" condition
(ok = false, code 2 for the file sink, code 12 for the UDP sink) when L is at or above the current
filter level, and returns Status Ok when L is below it. -/
theorem log_after_close (s : FileLogger) (u : UdpLogger) (fok cok : Bool) (cs : List Call)
    (L : LogLevel) (msg ts : Str) (oks : Nat → Bool) (n : Int) :
    (((s.close fok cok).1.calls cs).2 = [] ∧
      ((s.close fok cok).1.calls cs).1.log L msg ts oks =
        (if L.lt ((s.close fok cok).1.calls cs).1.level_ then Status.Ok
          else { ok := false, code := 2, message := "logger not opened".toList },
         ((s.close fok cok).1.calls cs).1, [])) ∧
    ((u.close.1.calls cs).2 = [] ∧
      (u.close.1.calls cs).1.log L msg ts n =
        (if L.lt (u.close.1.calls cs).1.level_ then Status.Ok
          else { ok := false, code := 12, message := "logger not opened".toList },
         (u.close.1.calls cs).1, [])) := by
  have hf := file_calls_closed _ cs (file_close_closed s fok cok)
  have hu := udp_calls_closed _ cs (udp_close_closed u)
  exact ⟨⟨hf.2, file_log_closed _ hf.1 L msg ts oks⟩, ⟨hu.2, udp_log_closed _ hu.1 L msg ts n⟩⟩

/-- C7, counterexample: after close() on a sink with filter level Info, log(Debug, "x") does not
fail with "not opened": it returns Status Ok, on the file sink and on the UDP sink. -/
theorem log_after_close_counterexample :
    ((demoFileLogger.close true true).1.log .Debug "x".toList "t".toList (fun _ => true)).1 =
        Status.Ok ∧
      ¬ (((demoFileLogger.close true true).1.log .Debug "x".toList "t".toList
            (fun _ => true)).1.ok = false ∧
          ((demoFileLogger.close true true).1.log .Debug "x".toList "t".toList
            (fun _ => true)).1.code = 2) ∧
      (demoUdpLogger.close.1.log .Debug "x".toList "t".toList 0).1 = Status.Ok ∧
      ¬ ((demoUdpLogger.close.1.log .Debug "x".toList "t".toList 0).1.ok = false ∧
          (demoUdpLogger.close.1.log .Debug "x".toList "t".toList 0).1.code = 12) := by
  decide

/-- C8: close() is idempotent on FileLogger and UdpLogger. From every sink state, a second close()
returns the state the first one left, with opened = false, and performs no release and no I/O, so
that over both calls the handle is released once when the sink was open and never otherwise; and
flush() on a closed sink performs no I/O and leaves the state unchanged. -/
theorem close_idempotent (s : FileLogger) (u : UdpLogger) (fok cok fok2 cok2 ok : Bool) :
    ((s.close fok cok).1.close fok2 cok2 = ((s.close fok cok).1, []) ∧
      (s.close fok cok).1.opened_ = false ∧
      ((s.close fok cok).2 ++ ((s.close fok cok).1.close fok2 cok2).2).count Effect.streamClose =
        (if s.opened_ then 1 else 0) ∧
      (s.opened_ = false → s.flush ok = (s, []))) ∧
    (u.close.1.close = (u.close.1, []) ∧
      u.close.1.opened_ = false ∧
      u.close.2 ++ u.close.1.close.2 = (if u.opened_ then [Effect.fdClose u.fd_] else []) ∧
      (u.opened_ = false → u.flush = (u, []))) := by
  refine ⟨⟨?_, file_close_closed s fok cok, ?_, ?_⟩, ⟨?_, udp_close_closed u, ?_, ?_⟩⟩
  · exact file_close_of_closed _ (file_close_closed s fok cok) fok2 cok2
  · rw [file_close_of_closed _ (file_close_closed s fok cok) fok2 cok2]
    by_cases ho : s.opened_ = true
    · by_cases hg : s.ofs_.good = true
      · simp [FileLogger.close, OFStream.flush, OFStream.close, ho, hg]
      · simp [FileLogger.close, OFStream.flush, OFStream.close, ho, hg]
    · simp [FileLogger.close, ho]
  · intro h
    simp [FileLogger.flush, h]
  · exact udp_close_of_closed _ (udp_close_closed u)
  · rw [udp_close_of_closed _ (udp_close_closed u)]
    by_cases ho : u.opened_ = true
    · simp [UdpLogger.close, ho]
    · simp [UdpLogger.close, ho]
  · intro _
    rfl

/-- C8, witness: flush() on the closed sample sinks. -/
theorem close_idempotent_witness :
    (demoFileLogger.close true true).1.flush true = ((demoFileLogger.close true true).1, []) ∧
      demoUdpLogger.close.1.flush = (demoUdpLogger.close.1, []) :=
  ⟨(close_idempotent (demoFileLogger.close true true).1 demoUdpLogger.close.1
      true true true true true).1.2.2.2 (by decide),
    (close_idempotent (demoFileLogger.close true true).1 demoUdpLogger.close.1
      true true true true true).2.2.2.2 (by decide)⟩

/-! ## The queue -/

theorem pushAll_q (q : TSQueue) (items : List Item) :
    q.pushAll items = { q_ := q.q_ ++ items, stop_ := q.stop_ } := by
  induction items generalizing q with
  | nil => simp [TSQueue.pushAll]
  | cons x xs ih =>
    have := ih (q.push x)
    simp only [TSQueue.pushAll, List.foldl_cons] at this ⊢
    rw [this]
    simp [TSQueue.push]

theorem popN_stopped (ps : List Item) (out : Item) :
    TSQueue.popN ps.length { q_ := ps, stop_ := true } out =
      some (ps.map (fun p => (true, p)), ps.getLastD out, { q_ := [], stop_ := true }) := by
  induction ps generalizing out with
  | nil => simp [TSQueue.popN]
  | cons x xs ih =>
    have hl : (x :: xs).getLastD out = xs.getLastD x := by cases xs <;> rfl
    rw [hl]
    simp [TSQueue.popN, TSQueue.pop, ih x]

theorem popN_succ_stopped (ps : List Item) (out : Item) :
    TSQueue.popN (ps.length + 1) { q_ := ps, stop_ := true } out =
      some (ps.map (fun p => (true, p)) ++ [(false, ps.getLastD out)], ps.getLastD out,
        { q_ := [], stop_ := true }) := by
  induction ps generalizing out with
  | nil => simp [TSQueue.popN, TSQueue.pop]
  | cons x xs ih =>
    have hl : (x :: xs).getLastD out = xs.getLastD x := by cases xs <;> rfl
    rw [hl, TSQueue.popN]
    simp [TSQueue.pop, ih x]

/-- C2: for every sequence of items P1..Pn pushed onto an empty queue that is not stopped, followed
by stop(), the next n calls of pop return true with exactly P1, ..., Pn in that order and the
(n+1)-th pop returns false, leaving `out` as the n-th pop left it; stop() removes no queued
item. -/
theorem queue_fifo_drain (ps : List Item) (out : Item) (q : TSQueue) :
    TSQueue.popN ps.length (TSQueue.new.pushAll ps).stop out =
        some (ps.map (fun p => (true, p)), ps.getLastD out, { q_ := [], stop_ := true }) ∧
      TSQueue.popN (ps.length + 1) (TSQueue.new.pushAll ps).stop out =
        some (ps.map (fun p => (true, p)) ++ [(false, ps.getLastD out)], ps.getLastD out,
          { q_ := [], stop_ := true }) ∧
      q.stop.q_ = q.q_ ∧ (q.pushAll ps).stop.q_ = q.q_ ++ ps := by
  have e : (TSQueue.new.pushAll ps).stop = { q_ := ps, stop_ := true } := by
    rw [pushAll_q]; simp [TSQueue.stop, TSQueue.new]
  rw [e]
  refine ⟨popN_stopped ps out, popN_succ_stopped ps out, rfl, ?_⟩
  rw [pushAll_q]; rfl

/-! ## The statistics of the collector -/

theorem level_index_range (s : Str) :
    0 ≤ level_index_from_message s ∧ level_index_from_message s < 4 := by
  rcases level_index_cases s with h | ⟨b, pre, a, mid, rest, e, n1, n2, n3, n4⟩
  · omega
  · have key := level_index_of_parse pre a mid b rest n1 n2 n3 n4
    rw [← e] at key
    rw [key]
    split_ifs <;> omega

theorem update_stats_eq (st : Stats) (msg : Str) :
    update_stats st msg =
      { total := (st.total + 1) % 2 ^ 64,
        per_level := Function.update st.per_level
          ⟨(level_index_from_message msg).toNat, by
            have := level_index_range msg
            omega⟩
          ((st.per_level ⟨(level_index_from_message msg).toNat, by
            have := level_index_range msg
            omega⟩ + 1) % 2 ^ 64),
        last_hour := st.last_hour,
        min_len := if msg.length < st.min_len then msg.length else st.min_len,
        max_len := if msg.length > st.max_len then msg.length else st.max_len,
        sum_len := (st.sum_len + msg.length) % 2 ^ 64 } := by
  unfold update_stats
  simp only
  rw [dif_pos (level_index_range msg)]
  by_cases h1 : msg.length < st.min_len <;> by_cases h2 : msg.length > st.max_len <;>
    simp [h1, h2]

theorem evict_sorted (cutoff : Int) (w : List Int) (hw : w.Sorted (· ≤ ·)) :
    evict cutoff w = w.filter (fun t => decide (cutoff ≤ t)) := by
  induction w with
  | nil => simp [evict]
  | cons t ts ih =>
    have hts : ts.Sorted (· ≤ ·) := hw.of_cons
    by_cases h : t < cutoff
    · have h2 : ¬ cutoff ≤ t := by omega
      simp [evict, h, h2, ih hts]
    · have h2 : cutoff ≤ t := by omega
      have hall : ∀ x ∈ ts, cutoff ≤ x := fun x hx => le_trans h2 (List.rel_of_sorted_cons hw x hx)
      have hf : ts.filter (fun t => decide (cutoff ≤ t)) = ts := by
        rw [List.filter_eq_self]
        intro x hx
        simpa using hall x hx
      simp [evict, h, h2, hf]

theorem filter_window (a b : Int) (hab : a ≤ b) (l r : List Int) :
    (l.filter (fun t => decide (a ≤ t)) ++ r).filter (fun t => decide (b ≤ t)) =
      (l ++ r).filter (fun t => decide (b ≤ t)) := by
  simp only [List.filter_append, List.filter_filter]
  congr 1
  apply List.filter_congr
  intro x _
  by_cases hx : b ≤ x
  · have : a ≤ x := by omega
    simp [hx, this]
  · simp [hx]

theorem step_window (N T : Nat) (c : Collector) (msg : Str) (now : Int) :
    (step N T c msg now).1.last_hour_times = evict (now - HOUR) (c.last_hour_times ++ [now]) := by
  unfold step
  simp only
  split_ifs <;> rfl

theorem step_st (N T : Nat) (c : Collector) (msg : Str) (now : Int) :
    (step N T c msg now).1.st =
      { update_stats c.st msg with
        last_hour := (evict (now - HOUR) (c.last_hour_times ++ [now])).length } := by
  unfold step
  simp only
  split_ifs <;> rfl

theorem step_last_hour (N T : Nat) (c : Collector) (msg : Str) (now : Int) :
    (step N T c msg now).1.st.last_hour = (step N T c msg now).1.last_hour_times.length := by
  rw [step_st, step_window]

theorem step_first_line (N T : Nat) (start now : Int) :
    (step N T (Collector.init start)
        (msg_of_datagram "[2024-01-01 00:00:00.000][ERROR] disk full".toList) now).1.st.words =
      [1, 0, 0, 0, 1, 1, 42, 42, 42] := by
  have hm : msg_of_datagram "[2024-01-01 00:00:00.000][ERROR] disk full".toList =
      "[2024-01-01 00:00:00.000][ERROR] disk full".toList := by decide
  have hw : (update_stats Stats.init "[2024-01-01 00:00:00.000][ERROR] disk full".toList).words =
      [1, 0, 0, 0, 1, 0, 42, 42, 42] := by decide
  have he : (evict (now - HOUR) ((Collector.init start).last_hour_times ++ [now])).length = 1 := by
    have : ¬ (now < now - HOUR) := by
      have : (0 : Int) ≤ HOUR := by decide
      omega
    simp [Collector.init, evict, this]
  rw [hm, step_st, he]
  simp only [Stats.words, List.cons.injEq, and_true] at hw ⊢
  obtain ⟨h0, h1, h2, h3, h4, _, h6, h7, h8⟩ := hw
  exact ⟨h0, h1, h2, h3, h4, trivial, h6, h7, h8⟩

/-- C6: ignoring 64-bit wrap-around, the update step increases total by 1, increases exactly the
per_level bucket selected by level_index_from_message(msg) by 1 and leaves the other three
unchanged, adds msg.size() to sum_len, sets min_len to min(old, len) and max_len to max(old, len)
and leaves last_hour alone; from the initial Stats min_len = max_len = msg.size(); and for the line
"[2024-01-01 00:00:00.000][ERROR] disk full" (42 characters) as first message the result has
total 1, per_level[Error] 1, the other buckets 0 and min_len = max_len = 42, also at the end of
the loop iteration that received it as a datagram (where last_hour is 1). -/
theorem update_stats_spec (st : Stats) (msg : Str) (h1 : st.total + 1 < 2 ^ 64)
    (h2 : st.sum_len + msg.length < 2 ^ 64)
    (h3 : ∀ i : Fin 4, ((i : Nat) : Int) = level_index_from_message msg →
      st.per_level i + 1 < 2 ^ 64) :
    (update_stats st msg).total = st.total + 1 ∧
    (∃ i : Fin 4, ((i : Nat) : Int) = level_index_from_message msg ∧
      (update_stats st msg).per_level i = st.per_level i + 1 ∧
      ∀ j, j ≠ i → (update_stats st msg).per_level j = st.per_level j) ∧
    (update_stats st msg).sum_len = st.sum_len + msg.length ∧
    (update_stats st msg).min_len = min st.min_len msg.length ∧
    (update_stats st msg).max_len = max st.max_len msg.length ∧
    (update_stats st msg).last_hour = st.last_hour ∧
    (st = Stats.init →
      (update_stats st msg).min_len = msg.length ∧ (update_stats st msg).max_len = msg.length) ∧
    ((update_stats Stats.init "[2024-01-01 00:00:00.000][ERROR] disk full".toList).words =
        [1, 0, 0, 0, 1, 0, 42, 42, 42] ∧
      "[2024-01-01 00:00:00.000][ERROR] disk full".toList.length = 42 ∧
      LogLevel.Error.toInt = 3 ∧
      ∀ (N T : Nat) (start now : Int),
        (step N T (Collector.init start)
            (msg_of_datagram "[2024-01-01 00:00:00.000][ERROR] disk full".toList) now).1.st.words =
          [1, 0, 0, 0, 1, 1, 42, 42, 42]) := by
  have hr := level_index_range msg
  rw [update_stats_eq]
  refine ⟨Nat.mod_eq_of_lt h1, ?_, Nat.mod_eq_of_lt h2, ?_, ?_, rfl, ?_, by decide, by decide,
    by decide, step_first_line⟩
  · refine ⟨⟨(level_index_from_message msg).toNat, by omega⟩, ?_, ?_, ?_⟩
    · simp only
      omega
    · simp only [Function.update_same]
      exact Nat.mod_eq_of_lt (h3 _ (by simp only; omega))
    · intro j hj
      simp only [Function.update_noteq hj]
  · simp only
    split_ifs <;> omega
  · simp only
    split_ifs <;> omega
  · intro hst
    subst hst
    simp only [Stats.init, SIZE_MAX] at h2 ⊢
    constructor
    · split_ifs <;> omega
    · split_ifs <;> omega

/-- C6, witness: a second message, "[12:01][DEBUG] bc", on the statistics left by
"[12:00][WARN] a". -/
theorem update_stats_spec_witness :
    (update_stats (update_stats Stats.init "[12:00][WARN] a".toList)
        "[12:01][DEBUG] bc".toList).total =
      (update_stats Stats.init "[12:00][WARN] a".toList).total + 1 :=
  (update_stats_spec (update_stats Stats.init "[12:00][WARN] a".toList)
    "[12:01][DEBUG] bc".toList (by decide) (by decide) (by decide)).1

theorem run_window (N T : Nat) (c : Collector) (xs : List (Str × Int)) (msg : Str) (now : Int)
    (h : (c.last_hour_times ++ (xs ++ [(msg, now)]).map Prod.snd).Sorted (· ≤ ·)) :
    (run N T c (xs ++ [(msg, now)])).1.last_hour_times =
        (c.last_hour_times ++ (xs ++ [(msg, now)]).map Prod.snd).filter
          (fun t => decide (now - HOUR ≤ t)) ∧
      (run N T c (xs ++ [(msg, now)])).1.st.last_hour =
        (run N T c (xs ++ [(msg, now)])).1.last_hour_times.length := by
  induction xs generalizing c with
  | nil =>
    simp only [List.nil_append, List.map_cons, List.map_nil] at h ⊢
    simp only [run]
    exact ⟨by rw [step_window, evict_sorted _ _ h], step_last_hour N T c msg now⟩
  | cons x xs ih =>
    obtain ⟨m1, t1⟩ := x
    have e0 : ((m1, t1) :: xs) ++ [(msg, now)] = (m1, t1) :: (xs ++ [(msg, now)]) := rfl
    rw [e0] at h ⊢
    rw [List.map_cons] at h ⊢
    rw [run]
    simp only
    have hpre : (c.last_hour_times ++ [t1]).Sorted (· ≤ ·) := by
      have : List.Sublist (c.last_hour_times ++ [t1])
          (c.last_hour_times ++ t1 :: (xs ++ [(msg, now)]).map Prod.snd) := by
        simp
      exact h.sublist this
    have hw := step_window N T c m1 t1
    rw [evict_sorted _ _ hpre] at hw
    have hle : t1 ≤ now := by
      have h2 : (t1 :: ((xs ++ [(msg, now)]).map Prod.snd)).Sorted (· ≤ ·) := by
        have : List.Sublist (t1 :: ((xs ++ [(msg, now)]).map Prod.snd))
            (c.last_hour_times ++ t1 :: (xs ++ [(msg, now)]).map Prod.snd) := by
          simp
        exact h.sublist this
      exact List.rel_of_sorted_cons h2 now (by simp)
    have hs : ((step N T c m1 t1).1.last_hour_times ++
        (xs ++ [(msg, now)]).map Prod.snd).Sorted (· ≤ ·) := by
      rw [hw]
      have : List.Sublist
          ((c.last_hour_times ++ [t1]).filter (fun t => decide (t1 - HOUR ≤ t)) ++
            (xs ++ [(msg, now)]).map Prod.snd)
          (c.last_hour_times ++ t1 :: (xs ++ [(msg, now)]).map Prod.snd) := by
        have e : c.last_hour_times ++ t1 :: (xs ++ [(msg, now)]).map Prod.snd =
            (c.last_hour_times ++ [t1]) ++ (xs ++ [(msg, now)]).map Prod.snd := by simp
        rw [e]
        exact List.Sublist.append (List.filter_sublist _) (List.Sublist.refl _)
      exact h.sublist this
    obtain ⟨i1, i2⟩ := ih (step N T c m1 t1).1 hs
    refine ⟨?_, i2⟩
    rw [i1, hw]
    have e : c.last_hour_times ++ t1 :: (xs ++ [(msg, now)]).map Prod.snd =
        (c.last_hour_times ++ [t1]) ++ (xs ++ [(msg, now)]).map Prod.snd := by simp
    rw [e]
    exact filter_window (t1 - HOUR) (now - HOUR) (by omega) _ _

/-- C3 (as amended): when the arrival timestamps in the window are in non-decreasing order, as
the steady clock delivers them, then after the eviction loop (pop the front while
front < now - 1h) the window size, which is the value stored in Stats.last_hour, equals the
number of arrivals t with t >= now - 1h: for any such window and any now, for one iteration of the
collector from any state, and for a whole run of the collector from its initial state. -/
theorem sliding_window_count (N T : Nat) (c : Collector) (msg : Str) (now : Int) (w : List Int)
    (xs : List (Str × Int)) (start : Int) (hw : w.Sorted (· ≤ ·))
    (hc : (c.last_hour_times ++ [now]).Sorted (· ≤ ·))
    (hx : ((xs ++ [(msg, now)]).map Prod.snd).Sorted (· ≤ ·)) :
    (evict (now - HOUR) w).length = w.countP (fun t => decide (t ≥ now - HOUR)) ∧
    (step N T c msg now).1.st.last_hour =
      (c.last_hour_times ++ [now]).countP (fun t => decide (t ≥ now - HOUR)) ∧
    (run N T (Collector.init start) (xs ++ [(msg, now)])).1.st.last_hour =
      ((xs ++ [(msg, now)]).map Prod.snd).countP (fun t => decide (t ≥ now - HOUR)) := by
  refine ⟨?_, ?_, ?_⟩
  · rw [evict_sorted _ _ hw, List.countP_eq_length_filter]
  · rw [step_last_hour, step_window, evict_sorted _ _ hc, List.countP_eq_length_filter]
  · have h := run_window N T (Collector.init start) xs msg now (by simpa [Collector.init] using hx)
    rw [h.2, h.1, List.countP_eq_length_filter]
    simp [Collector.init]

/-- C3, witness: arrivals at 0, 4h and 5h seen at now = 5h. -/
theorem sliding_window_count_witness :
    (evict (5 * HOUR - HOUR) [0, 4 * HOUR, 5 * HOUR]).length =
        [0, 4 * HOUR, 5 * HOUR].countP (fun t => decide (t ≥ 5 * HOUR - HOUR)) ∧
      (step 100 10 (Collector.init 0) ['a'] (5 * HOUR)).1.st.last_hour =
        ((Collector.init 0).last_hour_times ++ [5 * HOUR]).countP
          (fun t => decide (t ≥ 5 * HOUR - HOUR)) ∧
      (run 100 10 (Collector.init 0) ([(['x'], 0), (['y'], 4 * HOUR)] ++ [(['a'], 5 * HOUR)])).1.st.last_hour
        = (([(['x'], 0), (['y'], 4 * HOUR)] ++ [(['a'], 5 * HOUR)]).map Prod.snd).countP
          (fun t => decide (t ≥ 5 * HOUR - HOUR)) :=
  sliding_window_count 100 10 (Collector.init 0) ['a'] (5 * HOUR) [0, 4 * HOUR, 5 * HOUR]
    [(['x'], 0), (['y'], 4 * HOUR)] 0 (by decide) (by decide) (by decide)

/-- C3, counterexample. Boundary: with arrivals at 0 and at exactly one hour later, the collector
stores last_hour = 2 on the second message, while only one arrival has t > now - 1h. Order: with
arrivals inserted at 10h, 0, 10h + 1ns the collector stores last_hour = 3 on the third message,
while only two arrivals have t > now - 1h. -/
theorem sliding_window_count_counterexample :
    ((run 100 10 (Collector.init 0) [(['a'], 0), (['b'], HOUR)]).1.st.last_hour = 2 ∧
      [0, HOUR].countP (fun t => decide (t > HOUR - HOUR)) = 1) ∧
    ((run 100 10 (Collector.init 0)
        [(['a'], 10 * HOUR), (['b'], 0), (['c'], 10 * HOUR + 1)]).1.st.last_hour = 3 ∧
      [10 * HOUR, 0, 10 * HOUR + 1].countP (fun t => decide (t > 10 * HOUR + 1 - HOUR)) = 2) := by
  decide

theorem Stats.ne_iff (a b : Stats) : a.ne b = true ↔ a ≠ b := by
  constructor
  · intro h e
    subst e
    simp [Stats.ne] at h
  · intro h
    by_contra hne
    apply h
    have hw : a.words = b.words := by simpa [Stats.ne] using hne
    simp only [Stats.words, List.cons.injEq, and_true] at hw
    obtain ⟨h0, h1, h2, h3, h4, h5, h6, h7, h8⟩ := hw
    cases a with
    | mk ta pa la mina maxa suma =>
      cases b with
      | mk tb pb lb minb maxb sumb =>
        simp only at h0 h1 h2 h3 h4 h5 h6 h7 h8
        have hp : pa = pb := by
          funext i
          fin_cases i
          · exact h1
          · exact h2
          · exact h3
          · exact h4
        subst h0 hp h5 h6 h7 h8
        rfl

theorem step_total (N T : Nat) (c : Collector) (msg : Str) (now : Int) :
    (step N T c msg now).1.st.total = (c.st.total + 1) % 2 ^ 64 := by
  rw [step_st, update_stats_eq]

theorem run_total (N T : Nat) (c : Collector) (xs : List (Str × Int)) :
    (run N T c xs).1.st.total % 2 ^ 64 = (c.st.total + xs.length) % 2 ^ 64 := by
  induction xs generalizing c with
  | nil => simp [run]
  | cons x xs ih =>
    obtain ⟨m, t⟩ := x
    rw [run]
    simp only
    rw [ih, step_total, List.length_cons]
    omega

theorem run_reports (N T : Nat) (c : Collector) (xs : List (Str × Int)) (i : Nat) (msg : Str)
    (now : Int) (h : xs[i]? = some (msg, now)) :
    (run N T c xs).2[i]? = some (step N T (run N T c (xs.take i)).1 msg now).2 := by
  induction xs generalizing c i with
  | nil => simp at h
  | cons x xs ih =>
    obtain ⟨m, t⟩ := x
    cases i with
    | zero =>
      simp only [List.getElem?_cons_zero, Option.some.injEq, Prod.mk.injEq] at h
      obtain ⟨h1, h2⟩ := h
      subst h1 h2
      simp [run]
    | succ j =>
      simp only [List.getElem?_cons_succ] at h
      rw [run]
      simp only [List.getElem?_cons_succ, List.take_succ_cons]
      rw [ih _ j h, run]

theorem step_count (N T : Nat) (c : Collector) (msg : Str) (now : Int) (hN : 0 < N)
    (h : (c.st.total + 1) % 2 ^ 64 % N = 0) :
    (step N T c msg now).2 = [{ trigger := Trigger.count, snapshot := (step N T c msg now).1.st }] ∧
      (step N T c msg now).1.last_printed = (step N T c msg now).1.st ∧
      (step N T c msg now).1.last_print_tp = now := by
  have ht : (update_stats c.st msg).total = (c.st.total + 1) % 2 ^ 64 := by
    rw [update_stats_eq]
  unfold step
  simp only [ht, h, hN, gt_iff_lt, and_self, if_true]
  simp

/-- C4: for every N > 0, every T and every stream of received messages with their clock values,
whenever k is a multiple of N the collector emits exactly one report on the k-th message, the
count-triggered one (a snapshot with total = k), and no time-triggered report on that message.
The counter `total` is 64-bit, so k ranges below 2^64. -/
theorem count_trigger_exact (N T : Nat) (start : Int) (inputs : List (Str × Int)) (k : Nat)
    (hN : 0 < N) (hk1 : 1 ≤ k) (hk2 : k ≤ inputs.length) (hk3 : k < 2 ^ 64) (hdiv : N ∣ k) :
    ∃ snap : Stats,
      (run N T (Collector.init start) inputs).2[k - 1]? =
          some [{ trigger := Trigger.count, snapshot := snap }] ∧
        snap.total = k := by
  have hlt : k - 1 < inputs.length := by omega
  have hget : inputs[k - 1]? = some (inputs[k - 1].1, inputs[k - 1].2) := by
    rw [List.getElem?_eq_getElem hlt]
  have hrep := run_reports N T (Collector.init start) inputs (k - 1) _ _ hget
  have htot := run_total N T (Collector.init start) (inputs.take (k - 1))
  have hlen : (inputs.take (k - 1)).length = k - 1 := by
    rw [List.length_take]; omega
  rw [hlen] at htot
  have h0 : (Collector.init start).st.total = 0 := rfl
  rw [h0] at htot
  have hk : ((run N T (Collector.init start) (inputs.take (k - 1))).1.st.total + 1) % 2 ^ 64 = k := by
    omega
  have hmod : ((run N T (Collector.init start) (inputs.take (k - 1))).1.st.total + 1) % 2 ^ 64 % N
      = 0 := by
    rw [hk]
    exact Nat.mod_eq_zero_of_dvd hdiv
  have hstep := step_count N T (run N T (Collector.init start) (inputs.take (k - 1))).1
    inputs[k - 1].1 inputs[k - 1].2 hN hmod
  refine ⟨(step N T (run N T (Collector.init start) (inputs.take (k - 1))).1
    inputs[k - 1].1 inputs[k - 1].2).1.st, ?_, ?_⟩
  · rw [hrep, hstep.1]
  · rw [step_total, hk]

/-- C4, witness: N = 5, twelve messages, the tenth one. -/
theorem count_trigger_exact_witness :
    ∃ snap : Stats,
      (run 5 10 (Collector.init 0) (List.replicate 12 (['m'], 7))).2[10 - 1]? =
          some [{ trigger := Trigger.count, snapshot := snap }] ∧
        snap.total = 10 :=
  count_trigger_exact 5 10 0 (List.replicate 12 (['m'], 7)) 10 (by decide) (by decide)
    (by decide) (by decide) (by decide)

theorem step_no_count (N T : Nat) (c : Collector) (msg : Str) (now : Int)
    (hcount : ¬ (0 < N ∧ (c.st.total + 1) % 2 ^ 64 % N = 0)) :
    (step N T c msg now).2 =
      if Int.tdiv (now - c.last_print_tp) (10 ^ 9) ≥ toInt64 T ∧
          (step N T c msg now).1.st.ne c.last_printed = true then
        [{ trigger := Trigger.time, snapshot := (step N T c msg now).1.st }]
      else [] := by
  have ht : (update_stats c.st msg).total = (c.st.total + 1) % 2 ^ 64 := by
    rw [update_stats_eq]
  have hc2 : ¬ (N > 0 ∧ (update_stats c.st msg).total % N = 0) := by
    rw [ht]; exact hcount
  rw [step_st]
  unfold step
  simp only [hc2, if_false]
  split_ifs <;> simp_all

theorem toInt64_small (T : Nat) (h : T < 2 ^ 63) : toInt64 T = (T : Int) := by
  unfold toInt64
  have h1 : T % 2 ^ 64 = T := Nat.mod_eq_of_lt (by omega)
  rw [h1, if_pos h]

/-- The time trigger for thresholds below 2^63: on a message on which the count trigger does
not fire, with a clock that has not gone back since the last emission, the collector emits a
report, the time-triggered one, if and only if at least T seconds have elapsed since the last
emission and the snapshot differs from the last emitted one. -/
theorem time_trigger_iff (N T : Nat) (c : Collector) (msg : Str) (now : Int) (hT : T < 2 ^ 63)
    (hmono : c.last_print_tp ≤ now)
    (hcount : ¬ (0 < N ∧ (c.st.total + 1) % 2 ^ 64 % N = 0)) :
    ((step N T c msg now).2 ≠ [] ↔
        ((T : Int) * 10 ^ 9 ≤ now - c.last_print_tp ∧
          (step N T c msg now).1.st ≠ c.last_printed)) ∧
      ((step N T c msg now).2 ≠ [] →
        (step N T c msg now).2 =
          [{ trigger := Trigger.time, snapshot := (step N T c msg now).1.st }]) := by
  have hrep := step_no_count N T c msg now hcount
  rw [toInt64_small T hT] at hrep
  have hdiv : Int.tdiv (now - c.last_print_tp) (10 ^ 9) ≥ (T : Int) ↔
      (T : Int) * 10 ^ 9 ≤ now - c.last_print_tp := by
    rw [Int.tdiv_eq_ediv (by omega) (by norm_num)]
    constructor
    · intro h
      have := (Int.le_ediv_iff_mul_le (by norm_num : (0 : Int) < 10 ^ 9)).1 h
      exact this
    · intro h
      exact (Int.le_ediv_iff_mul_le (by norm_num : (0 : Int) < 10 ^ 9)).2 h
  rw [hrep]
  constructor
  · rw [← hdiv, ← Stats.ne_iff]
    split_ifs with h
    · exact ⟨fun _ => h, fun _ => List.cons_ne_nil _ _⟩
    · exact ⟨fun h2 => absurd rfl h2, fun h2 => absurd h2 h⟩
  · split_ifs with h
    · intro _; trivial
    · intro h2; exact absurd rfl h2

/-- C5 at the failing inputs T = 2^63 and T = 2^64 - 1, with N = 100 (the count trigger does not
fire on the first message): on the first message, received at the very clock value of the start
(elapsed time 0), the collector emits a time-triggered report although 0 seconds are fewer than
T seconds; the conversion `(long long)T` yields -2^63, respectively -1. -/
theorem time_trigger_cast_failure :
    ((step 100 (2 ^ 63) (Collector.init 0) ['x'] 0).2.map Report.trigger = [Trigger.time] ∧
      toInt64 (2 ^ 63) = -(2 ^ 63) ∧
      ¬ (((2 ^ 63 : Nat) : Int) * 10 ^ 9 ≤ 0 - (Collector.init 0).last_print_tp)) ∧
    ((step 100 (2 ^ 64 - 1) (Collector.init 0) ['x'] 0).2.map Report.trigger = [Trigger.time] ∧
      toInt64 (2 ^ 64 - 1) = -1 ∧
      ¬ (((2 ^ 64 - 1 : Nat) : Int) * 10 ^ 9 ≤ 0 - (Collector.init 0).last_print_tp)) := by
  decide

/-- The time trigger on the first message, T = 10 s, 11 s after the start. -/
theorem time_trigger_iff_witness :
    ((step 0 10 (Collector.init 0) ['x'] (11 * 10 ^ 9)).2 ≠ [] ↔
        (((10 : Nat) : Int) * 10 ^ 9 ≤ 11 * 10 ^ 9 - (Collector.init 0).last_print_tp ∧
          (step 0 10 (Collector.init 0) ['x'] (11 * 10 ^ 9)).1.st ≠
            (Collector.init 0).last_printed)) :=
  (time_trigger_iff 0 10 (Collector.init 0) ['x'] (11 * 10 ^ 9) (by decide) (by decide)
    (by decide)).1

end LoggingLib
